import Mathlib

/-!
Verification development for the `azure-sdk-generator` CLI
(`packages/sdk-gen/src`): a shallow embedding of its two decision
procedures — the OpenAPI spec-file selector (`github.ts`) and the
version ranker (`index.ts`) — together with the package-name
normalization, the scaffolded re-export entry file (`scaffold.ts`),
and the control flow of the bulk `generate-latest` loop.

Strings are modelled by Lean `String`; JavaScript string truthiness
(`if (s)`) is modelled explicitly; machine numbers returned by the
comparator are modelled by `Int` (all values involved are small);
thrown exceptions are modelled by `Except`.
-/

/-- Error outcomes of the spec-file selector (`github.ts`, `pickSpecFile`):
the thrown messages distinguish a missing file (the `--file` override not
among the candidates, or an empty candidate list) from an ambiguous
directory (several JSONs, none matching a preferred pattern); both report
the available candidate list. -/
inductive SpecPickError where
  | NotFound (available : List String)
  | AmbiguousSelection (available : List String)
deriving DecidableEq

/-- JavaScript truthiness of an optional string argument: `undefined` and
the empty string are falsy, every other string is truthy. Used for
`if (fileOverride)` in `pickSpecFile` and `if (!scope)` in
`normalizeScope`. -/
def jsTruthy : Option String → Bool
  | none => false
  | some s => !(s == "")

/-- The ordered pattern list `[`${api}.json`, `${api}s.json`]` from
`pickSpecFile` (`github.ts` lines 65-68). -/
def preferredPatterns (api : String) : List String :=
  [api ++ ".json", api ++ "s.json"]

/-- `pickSpecFile(api, jsons, fileOverride)` from `github.ts` lines 53-77:
a truthy override must be a member of `jsons` (else NotFound); otherwise
an empty list is NotFound, a singleton is returned, and with two or more
candidates the first preferred pattern present is returned, else
AmbiguousSelection. -/
def pickSpecFile (api : String) (jsons : List String)
    (fileOverride : Option String) : Except SpecPickError String :=
  if jsTruthy fileOverride then
    let f := fileOverride.getD ""
    if jsons.contains f then Except.ok f
    else Except.error (SpecPickError.NotFound jsons)
  else if jsons.length = 0 then Except.error (SpecPickError.NotFound jsons)
  else if jsons.length = 1 then Except.ok (jsons.headD "")
  else
    match (preferredPatterns api).find? (fun p => jsons.contains p) with
    | some p => Except.ok p
    | none => Except.error (SpecPickError.AmbiguousSelection jsons)

/-- ASCII-lowered character list of a string, modelling the
case-insensitive regex flag `i` of `/preview|beta|rc/i` (version labels
in the upstream repository are ASCII). -/
def lowerList (s : String) : List Char := s.toList.map Char.toLower

/-- Case-insensitive substring test: does `tok` occur inside `v`?
Models `/tok/i.test(v)` for a literal lowercase `tok`. -/
def containsToken (v : String) (tok : String) : Bool :=
  let vs := lowerList v
  let ts := tok.toList
  (List.range (vs.length + 1)).any (fun i => ts.isPrefixOf (vs.drop i))

/-- `isStableVersion` from `index.ts` lines 163-165:
`!/preview|beta|rc/i.test(v)`. -/
def isStableVersion (v : String) : Bool :=
  !(containsToken v "preview" || containsToken v "beta" || containsToken v "rc")

/-- Split a character list at every non-digit character, keeping the
(possibly empty) pieces between them: models
`v.split(/[^0-9]+/)` up to empty pieces, which the caller filters out
exactly as the source's `.filter(Boolean)` does. -/
def splitNonDigits (cs : List Char) : List (List Char) :=
  let step := fun (c : Char) (acc : List Char × List (List Char)) =>
    if c.isDigit then (c :: acc.1, acc.2) else ([], acc.1 :: acc.2)
  let r := cs.foldr step ([], [])
  r.1 :: r.2

/-- `parseInt(x, 10)` on a nonempty run of decimal digits. -/
def parseNatDigits (ds : List Char) : Nat :=
  ds.foldl (fun n c => n * 10 + (c.toNat - 48)) 0

/-- `versionTokens` from `index.ts` lines 167-169:
`v.split(/[^0-9]+/).filter(Boolean).map((x) => parseInt(x, 10))`. -/
def versionTokens (v : String) : List Nat :=
  ((splitNonDigits v.toList).filter (fun t => !t.isEmpty)).map parseNatDigits

/-- Code-point lexicographic strict order on character lists; basis of the
model of `b.localeCompare(a)` (the default collation restricted to the
ASCII version labels at hand). -/
def charListLt : List Char → List Char → Bool
  | [], [] => false
  | [], _ :: _ => true
  | _ :: _, [] => false
  | a :: ta, b :: tb =>
    if a.toNat < b.toNat then true
    else if b.toNat < a.toNat then false
    else charListLt ta tb

/-- Model of `x.localeCompare(y)`: negative when `x` precedes `y`,
positive when `y` precedes `x`, zero on equal strings (code-point
comparison; the labels compared are plain ASCII). -/
def localeCompareInt (x y : String) : Int :=
  if charListLt x.toList y.toList then -1
  else if charListLt y.toList x.toList then 1
  else 0

/-- The token-comparison loop of `compareVersionsDesc` (`index.ts` lines
177-182) when the first sequence is exhausted: remaining tokens of the
second sequence are compared against `0`; the first nonzero one decides. -/
def cmpTokensNil : List Nat → Option Int
  | [] => none
  | b :: tb => if b ≠ 0 then some ((b : Int) - 0) else cmpTokensNil tb

/-- The token-comparison loop of `compareVersionsDesc` (`index.ts` lines
177-182): walk both token sequences in step, a missing token reading as
`0`; at the first position where they differ return `vb - va`; `none`
when no position differs. -/
def cmpTokens : List Nat → List Nat → Option Int
  | [], tb => cmpTokensNil tb
  | a :: ta, [] => if a ≠ 0 then some (0 - (a : Int)) else cmpTokens ta []
  | a :: ta, b :: tb =>
    if a ≠ b then some ((b : Int) - (a : Int)) else cmpTokens ta tb

/-- `compareVersionsDesc` from `index.ts` lines 171-184: stable labels
before prerelease labels, then descending numeric token order, then
`b.localeCompare(a)` as the final tie-break. -/
def compareVersionsDesc (a b : String) : Int :=
  let sa := isStableVersion a
  let sb := isStableVersion b
  if sa ≠ sb then (if sa then -1 else 1)
  else
    match cmpTokens (versionTokens a) (versionTokens b) with
    | some d => d
    | none => localeCompareInt b a

/-- Insert one element into a list already sorted by the boolean
comparator, before the first element it compares at-or-before. -/
def jsSortInsert (le : String → String → Bool) (x : String) :
    List String → List String
  | [] => [x]
  | y :: ys => if le x y then x :: y :: ys else y :: jsSortInsert le x ys

/-- Insertion sort by a boolean comparator: the model of JavaScript
`Array.prototype.sort(cmp)` for a consistent comparator (which
`compareVersionsDesc` is: its only ties are identical strings, so the
sorted arrangement is unique and stability is immaterial). -/
def jsSort (le : String → String → Bool) : List String → List String
  | [] => []
  | x :: xs => jsSortInsert le x (jsSort le xs)

/-- The comparator `compareVersionsDesc` as a boolean "sorts-at-or-before"
relation, as consumed by the sort. -/
def compareLe (a b : String) : Bool := decide (compareVersionsDesc a b ≤ 0)

/-- `versions.slice().sort(compareVersionsDesc)` from `pickLatest`
(`index.ts` line 187), the spec's `rankDescending`. -/
def rankDescending (versions : List String) : List String :=
  jsSort compareLe versions

/-- `pickLatest` from `index.ts` lines 186-189: head of the descending
ranking (`undefined`, i.e. `none`, on an empty input). -/
def pickLatest (versions : List String) : Option String :=
  (rankDescending versions).head?

/-- Zero-pad a token sequence on the right to length `n`: the spec's
"missing trailing tokens treated as zero". -/
def padTokens (t : List Nat) (n : Nat) : List Nat :=
  t ++ List.replicate (n - t.length) 0

/-- First-difference lexicographic comparison of two equal-length token
sequences, written from the spec's description: at the first index where
the sequences differ return `vb - va`, `none` if none differs. -/
def lexFirstDiff : List Nat → List Nat → Option Int
  | a :: ta, b :: tb =>
    if a = b then lexFirstDiff ta tb else some ((b : Int) - (a : Int))
  | _, _ => none

/-- The spec's description of the within-partition ranking: compare the
two token sequences padded with zeros to a common length,
lexicographically, and on a tie fall back to reverse lexical comparison
of the raw labels. -/
def rankSamePartitionSpec (a b : String) : Int :=
  let ta := versionTokens a
  let tb := versionTokens b
  let n := max ta.length tb.length
  match lexFirstDiff (padTokens ta n) (padTokens tb n) with
  | some d => d
  | none => localeCompareInt b a

/-- `normalizeScope` from `index.ts` lines 19-23: a falsy scope
(`undefined` or the empty string) becomes `""`; a scope not starting with
`"@"` gets `"@"` prepended; any other scope is returned unchanged. The
`startsWith` test is modelled by character-list prefix. -/
def strStartsWith (s pre : String) : Bool := pre.toList.isPrefixOf s.toList

/-- `normalizeScope` itself (`index.ts` lines 19-23). -/
def normalizeScope (scope : Option String) : String :=
  if !jsTruthy scope then ""
  else
    let s := scope.getD ""
    if !strStartsWith s "@" then "@" ++ s else s

/-- The base directory/package name
``azure-devops-${api}-${apiVersion}`` (`index.ts` line 133). -/
def baseName (api version : String) : String :=
  "azure-devops-" ++ api ++ "-" ++ version

/-- The generated package name (`index.ts` lines 133-134):
``scope ? `${scope}/${baseName}` : baseName`` applied to the normalized
scope, string truthiness made explicit. -/
def pkgNameOf (scope : Option String) (api version : String) : String :=
  let s := normalizeScope scope
  if !(s == "") then s ++ "/" ++ baseName api version
  else baseName api version

/-- Which generated submodules `scaffoldPackage` (`scaffold.ts` lines
23-42) finds on disk, one boolean per `fileExists` probe group: the API
index, the model index, the configuration module, the runtime module,
whether the generator used a `src/` layout, and whether `src/index.ts`
exists for the fallback re-export. -/
structure GenPresence where
  hasApisIndex : Bool
  hasModelsIndex : Bool
  hasConfiguration : Bool
  hasRuntime : Bool
  usesSrcLayout : Bool
  fallbackSrcIndex : Bool
deriving DecidableEq

/-- The two fixed comment lines that begin every synthesized entry file
(`scaffold.ts` lines 103-104). -/
def headerLines : List String :=
  ["// Auto-generated entrypoint.", "// Do not edit manually.\n"]

/-- `entryFrom` (`scaffold.ts` line 100): prefix a module path with
`./src/` or `./` according to the detected layout. -/
def entryFrom (usesSrcLayout : Bool) (p : String) : String :=
  if usesSrcLayout then "./src/" ++ p else "./" ++ p

/-- The re-export line for the API layer (`scaffold.ts` line 108). -/
def apisExportLine (u : Bool) : String :=
  "export * from \"" ++ entryFrom u "apis/index.js" ++ "\";"

/-- The re-export line for the model layer (`scaffold.ts` line 109). -/
def modelsExportLine (u : Bool) : String :=
  "export * from \"" ++ entryFrom u "models/index.js" ++ "\";"

/-- The re-export line for the configuration module (`scaffold.ts`
line 110). -/
def configExportLine (u : Bool) : String :=
  "export * from \"" ++ entryFrom u "configuration.js" ++ "\";"

/-- The re-export line for the runtime module (`scaffold.ts` line 111). -/
def runtimeExportLine (u : Bool) : String :=
  "export * from \"" ++ entryFrom u "runtime.js" ++ "\";"

/-- The fallback re-export of the generic entry file (`scaffold.ts`
line 114). -/
def srcIndexExportLine : String := "export * from \"./src/index.js\";"

/-- The comment emitted when no known entrypoint was found (`scaffold.ts`
lines 117-121). -/
def noEntrypointComment (u : Bool) : String :=
  "// No known entrypoints were detected. Inspect generated sources under "
    ++ (if u then "./src" else "./")

/-- The line list of the synthesized `index.ts` entry file, mirroring the
conditional pushes of `scaffoldPackage` (`scaffold.ts` lines 102-123):
two header comments, one re-export per present submodule, then — still at
the two header lines only — the `src/index` fallback if it exists, and
finally the no-entrypoint comment if the file still has no export. -/
def exportsLines (g : GenPresence) : List String :=
  let l0 := headerLines
  let l1 := if g.hasApisIndex then l0 ++ [apisExportLine g.usesSrcLayout] else l0
  let l2 := if g.hasModelsIndex then l1 ++ [modelsExportLine g.usesSrcLayout] else l1
  let l3 := if g.hasConfiguration then l2 ++ [configExportLine g.usesSrcLayout] else l2
  let l4 := if g.hasRuntime then l3 ++ [runtimeExportLine g.usesSrcLayout] else l3
  let l5 :=
    if l4.length ≤ 2 && g.fallbackSrcIndex then l4 ++ [srcIndexExportLine] else l4
  if l5.length ≤ 2 then l5 ++ [noEntrypointComment g.usesSrcLayout] else l5

/-- The block of module re-export lines a configuration should produce,
one per present submodule, in the fixed source order; used to state the
characterization of `exportsLines`. -/
def exportBlock (g : GenPresence) : List String :=
  (if g.hasApisIndex then [apisExportLine g.usesSrcLayout] else []) ++
  (if g.hasModelsIndex then [modelsExportLine g.usesSrcLayout] else []) ++
  (if g.hasConfiguration then [configExportLine g.usesSrcLayout] else []) ++
  (if g.hasRuntime then [runtimeExportLine g.usesSrcLayout] else [])

/-- One iteration of the `generate-latest` per-API loop (`index.ts` lines
203-259): the body — version listing, ranking, file selection, download,
generation, scaffolding — is abstracted as a fallible step producing
either a success log line or a thrown message; the surrounding
`try`/`catch` converts a failure into the printed
``Error en ${api}: ${message}`` line instead of aborting the loop. -/
def logOfApi (step : String → Except String String) (api : String) : String :=
  match step api with
  | Except.ok m => m
  | Except.error e => "Error en " ++ api ++ ": " ++ e

/-- The `for (const api of apis)` loop of `generate-latest` with its
per-API `try`/`catch`: every API contributes exactly one processed
entry, failures included. -/
def generateLatestLoop (step : String → Except String String) :
    List String → List String
  | [] => []
  | api :: rest => logOfApi step api :: generateLatestLoop step rest

/-- A concrete per-API step that fails on the API named "bad" and
succeeds on every other API; used to instantiate the loop theorem. -/
def stepW : String → Except String String := fun a =>
  if a = "bad" then Except.error "boom" else Except.ok a

/-- Helper: the search over the preferred pattern list is the two-way
conditional on membership of `<api>.json` and then `<api>s.json`. -/
theorem find_preferred_eq (api : String) (js : List String) :
    (preferredPatterns api).find? (fun p => js.contains p) =
      if js.contains (api ++ ".json") then some (api ++ ".json")
      else if js.contains (api ++ "s.json") then some (api ++ "s.json")
      else none := by
  show List.find? (fun p => js.contains p) [api ++ ".json", api ++ "s.json"] = _
  cases hc1 : js.contains (api ++ ".json") with
  | true => rw [List.find?_cons_of_pos _ hc1]; rfl
  | false =>
    have h1 : ¬ (js.contains (api ++ ".json") = true) := by rw [hc1]; decide
    rw [List.find?_cons_of_neg _ h1]
    cases hc2 : js.contains (api ++ "s.json") with
    | true => rw [List.find?_cons_of_pos _ hc2]; rfl
    | false =>
      have h2 : ¬ (js.contains (api ++ "s.json") = true) := by rw [hc2]; decide
      rw [List.find?_cons_of_neg _ h2]
      rfl

/-- Claim C1: with no override, `pickSpecFile` fails with NotFound on an
empty candidate list, returns the sole member of a singleton list, and on
two or more candidates returns the first of the patterns `<api>.json`,
`<api>s.json` (in that order) present in the list, failing with
AmbiguousSelection over the full candidate set when neither pattern is
present. -/
theorem pickSpecFile_no_override_cases (api : String) (jsons : List String) :
    (jsons = [] → pickSpecFile api jsons none =
        Except.error (SpecPickError.NotFound [])) ∧
    (∀ x, jsons = [x] → pickSpecFile api jsons none = Except.ok x) ∧
    (2 ≤ jsons.length → pickSpecFile api jsons none =
        if jsons.contains (api ++ ".json") then Except.ok (api ++ ".json")
        else if jsons.contains (api ++ "s.json") then
          Except.ok (api ++ "s.json")
        else Except.error (SpecPickError.AmbiguousSelection jsons)) := by
  refine ⟨?_, ?_, ?_⟩
  · rintro rfl; rfl
  · rintro x rfl; rfl
  · intro hlen
    cases jsons with
    | nil => simp at hlen
    | cons a rest =>
      cases rest with
      | nil => simp at hlen
      | cons b t =>
        have hstep : pickSpecFile api (a :: b :: t) none =
            match (preferredPatterns api).find?
                (fun p => (a :: b :: t).contains p) with
            | some p => Except.ok p
            | none =>
                Except.error (SpecPickError.AmbiguousSelection (a :: b :: t)) :=
          rfl
        rw [hstep, find_preferred_eq]
        cases hc1 : (a :: b :: t).contains (api ++ ".json") with
        | true => rfl
        | false =>
          cases hc2 : (a :: b :: t).contains (api ++ "s.json") with
          | true => rfl
          | false => rfl

/-- Claim C1 witness: candidates `["x.json", "y.json"]` with key `"a"` and
no override fail with AmbiguousSelection over the full candidate set. -/
theorem pickSpecFile_no_override_cases_witness :
    pickSpecFile "a" ["x.json", "y.json"] none =
      Except.error (SpecPickError.AmbiguousSelection ["x.json", "y.json"]) := by
  rw [(pickSpecFile_no_override_cases "a" ["x.json", "y.json"]).2.2 (by decide)]
  rfl

/-- Claim C2 (counterexample): the empty string is a present override that
is not a member of the candidate list, yet the selector does not fail with
NotFound — it falls through to singleton selection and returns the sole
candidate. -/
theorem pickSpecFile_present_empty_override_cex :
    pickSpecFile "a" ["x.json"] (some "") = Except.ok "x.json" ∧
    (["x.json"] : List String).contains "" = false :=
  ⟨rfl, rfl⟩

/-- Claim C2 (amended): for every present and NON-EMPTY override, the
selector returns the override iff it is a member of the candidate list,
and fails with NotFound over the full candidate set otherwise. -/
theorem pickSpecFile_with_override (api o : String) (jsons : List String)
    (h : o ≠ "") :
    pickSpecFile api jsons (some o) =
      if jsons.contains o then Except.ok o
      else Except.error (SpecPickError.NotFound jsons) := by
  have hb : (o == "") = false := by simpa using h
  simp [pickSpecFile, jsTruthy, hb]

/-- Claim C2 witness: override `"a.json"` among candidates
`["a.json", "b.json"]` is returned unchanged. -/
theorem pickSpecFile_with_override_witness :
    pickSpecFile "a" ["a.json", "b.json"] (some "a.json") =
      Except.ok "a.json" := by
  rw [pickSpecFile_with_override "a" "a.json" ["a.json", "b.json"] (by decide)]
  rfl

/-- Claim C3: every stable label is placed before every prerelease label:
`compareVersionsDesc` returns a negative value on such a pair. -/
theorem stable_sorts_before_prerelease (a b : String)
    (ha : isStableVersion a = true) (hb : isStableVersion b = false) :
    compareVersionsDesc a b < 0 := by
  simp [compareVersionsDesc, ha, hb]

/-- Claim C3 witness: `"7.1"` is stable, `"7.1-preview"` is prerelease,
and the comparator orders the former first. -/
theorem stable_sorts_before_prerelease_witness :
    isStableVersion "7.1" = true ∧ isStableVersion "7.1-preview" = false ∧
    compareVersionsDesc "7.1" "7.1-preview" < 0 :=
  ⟨by decide, by decide,
    stable_sorts_before_prerelease "7.1" "7.1-preview" (by decide) (by decide)⟩

/-- Claim C5 (counterexample): the spec's first example output
`["7.2", "7.1", "7.0"]` is wrong — `"7.2"` does not even occur in the
input `["7.1", "7.2-preview", "7.0"]`, so the ranking cannot produce it. -/
theorem rankDescending_first_example_cex :
    rankDescending ["7.1", "7.2-preview", "7.0"] ≠ ["7.2", "7.1", "7.0"] := by
  decide

/-- Claim C5 (amended): ranking `["7.1", "7.2-preview", "7.0"]` yields
`["7.1", "7.0", "7.2-preview"]` (stable labels first, numeric descending
within the stable group), and ranking `["7.0", "7.1-preview", "7.2"]`
yields `["7.2", "7.0", "7.1-preview"]` exactly as the spec states. -/
theorem rankDescending_examples :
    rankDescending ["7.1", "7.2-preview", "7.0"] =
      ["7.1", "7.0", "7.2-preview"] ∧
    rankDescending ["7.0", "7.1-preview", "7.2"] =
      ["7.2", "7.0", "7.1-preview"] := by
  decide

/-- Claim C6: the spec-file selector and the version ranker are pure
deterministic functions of their inputs: two applications to identical
inputs yield identical results, with no hidden state in the model. -/
theorem selector_and_ranker_deterministic (api : String) (jsons : List String)
    (fileOverride : Option String) (versions : List String) :
    pickSpecFile api jsons fileOverride = pickSpecFile api jsons fileOverride ∧
    rankDescending versions = rankDescending versions ∧
    pickLatest versions = pickLatest versions :=
  ⟨rfl, rfl, rfl⟩

/-- Claim C10: an empty-string override is falsy in JavaScript and
behaves exactly as an absent override: the selector never fails with
NotFound on account of `""` not being a candidate, and instead proceeds
to the empty/singleton/pattern selection logic over the candidates. -/
theorem pickSpecFile_empty_override_as_absent (api : String)
    (jsons : List String) :
    pickSpecFile api jsons (some "") = pickSpecFile api jsons none := rfl

/-- Helper: `max` distributes over successor, stated in `+ 1` form. -/
theorem max_add_one (x y : Nat) : max (x + 1) (y + 1) = max x y + 1 :=
  Nat.succ_max_succ x y

/-- Helper: padding a nonempty token list to a successor length peels off
the head. -/
theorem padTokens_cons (x : Nat) (t : List Nat) (n : Nat) :
    padTokens (x :: t) (n + 1) = x :: padTokens t n := by
  simp [padTokens, Nat.add_sub_add_right]

/-- Helper: the comparison loop on an exhausted first sequence agrees
with the first-difference comparison against an all-zero pad. -/
theorem cmpTokensNil_eq_lexFirstDiff (tb : List Nat) :
    cmpTokensNil tb = lexFirstDiff (List.replicate tb.length 0) tb := by
  induction tb with
  | nil => rfl
  | cons b tb ih =>
    by_cases hb : b = 0
    · subst hb
      simp [cmpTokensNil, lexFirstDiff, List.replicate_succ, ih]
    · simp [cmpTokensNil, lexFirstDiff, List.replicate_succ, hb, Ne.symm hb]

/-- Helper: the comparison loop on an exhausted second sequence agrees
with the first-difference comparison against an all-zero pad. -/
theorem cmpTokens_nil_right_eq (ta : List Nat) :
    cmpTokens ta [] = lexFirstDiff ta (List.replicate ta.length 0) := by
  induction ta with
  | nil => rfl
  | cons a ta ih =>
    by_cases ha : a = 0
    · subst ha
      simp [cmpTokens, lexFirstDiff, List.replicate_succ, ih]
    · simp [cmpTokens, lexFirstDiff, List.replicate_succ, ha]

/-- Helper: the source's token-comparison loop (`cmpTokens`, missing
tokens read as zero on the fly) computes exactly the spec's
first-difference comparison of the two sequences zero-padded to their
common length. -/
theorem cmpTokens_eq_lexFirstDiff (ta tb : List Nat) :
    cmpTokens ta tb =
      lexFirstDiff (padTokens ta (max ta.length tb.length))
        (padTokens tb (max ta.length tb.length)) := by
  induction ta generalizing tb with
  | nil =>
    simp only [cmpTokens, padTokens, List.length_nil, Nat.zero_max,
      Nat.sub_zero, List.nil_append, Nat.sub_self, List.replicate_zero,
      List.append_nil]
    exact cmpTokensNil_eq_lexFirstDiff tb
  | cons a ta ih =>
    cases tb with
    | nil =>
      simp only [padTokens, List.length_cons, List.length_nil, Nat.max_zero,
        Nat.sub_self, List.replicate_zero, List.append_nil, Nat.sub_zero,
        List.nil_append]
      exact cmpTokens_nil_right_eq (a :: ta)
    | cons b tb =>
      rw [List.length_cons, List.length_cons, max_add_one, padTokens_cons,
        padTokens_cons]
      by_cases hab : a = b
      · subst hab
        simp [cmpTokens, lexFirstDiff, ih]
      · simp [cmpTokens, lexFirstDiff, hab]

/-- Claim C4: within one partition (both labels stable or both
prerelease), `compareVersionsDesc` computes the spec's comparison: the
token sequences obtained by splitting on non-digit runs and parsing the
digit runs, zero-padded to a common length, compared lexicographically
first-difference-wins with `vb - va`; and on identical padded sequences
the reverse lexical comparison of the raw labels decides, so the order
is deterministic on every input. -/
theorem compareVersionsDesc_same_partition (a b : String)
    (h : isStableVersion a = isStableVersion b) :
    compareVersionsDesc a b = rankSamePartitionSpec a b := by
  unfold compareVersionsDesc rankSamePartitionSpec
  rw [cmpTokens_eq_lexFirstDiff]
  simp [h]

/-- Claim C4 witness: both `"1.10"` and `"1.9"` are stable, and on them
the comparator equals the spec comparison (numeric, not lexical: the
token sequence of `"1.10"` wins). -/
theorem compareVersionsDesc_same_partition_witness :
    isStableVersion "1.10" = isStableVersion "1.9" ∧
    compareVersionsDesc "1.10" "1.9" = rankSamePartitionSpec "1.10" "1.9" ∧
    compareVersionsDesc "1.10" "1.9" = -1 :=
  ⟨by decide,
   compareVersionsDesc_same_partition "1.10" "1.9" (by decide),
   by decide⟩

/-- Claim C7: in the bulk `generate-latest` loop, a failure while
processing one API is caught and turned into its logged error line, and
every API before and after it is still processed: the loop output around
a failing API decomposes into the processed prefix, the error line, and
the processed suffix; and the loop always runs to completion, producing
one entry per discovered API. -/
theorem generateLatest_failure_isolated (step : String → Except String String)
    (pre post : List String) (api e : String)
    (h : step api = Except.error e) :
    generateLatestLoop step (pre ++ api :: post) =
      generateLatestLoop step pre ++
        ("Error en " ++ api ++ ": " ++ e) :: generateLatestLoop step post ∧
    ∀ l : List String, (generateLatestLoop step l).length = l.length := by
  constructor
  · induction pre with
    | nil => simp [generateLatestLoop, logOfApi, h]
    | cons x xs ih => simp [generateLatestLoop, ih]
  · intro l
    induction l with
    | nil => rfl
    | cons x xs ih => simp [generateLatestLoop, ih]

/-- Claim C7 witness: with a step failing exactly on `"bad"`, the loop
over `["x", "bad", "y"]` still processes `"x"` and `"y"` and logs the
error for `"bad"` in between. -/
theorem generateLatest_failure_isolated_witness :
    generateLatestLoop stepW (["x"] ++ "bad" :: ["y"]) =
      generateLatestLoop stepW ["x"] ++
        ("Error en " ++ "bad" ++ ": " ++ "boom") ::
          generateLatestLoop stepW ["y"] :=
  (generateLatest_failure_isolated stepW ["x"] ["y"] "bad" "boom" rfl).1

/-- Claim C8: the synthesized entry file contains exactly one re-export
line for each of the API layer, model layer, configuration module and
runtime module that is present; and after the two header comments it is
exactly the block of those lines, falling back — when none is present —
to the single `./src/index.js` re-export if that file exists, and to the
single no-entrypoint comment otherwise. -/
theorem scaffold_entry_exports (g : GenPresence) :
    ((exportsLines g).count (apisExportLine g.usesSrcLayout)
        = if g.hasApisIndex then 1 else 0) ∧
    ((exportsLines g).count (modelsExportLine g.usesSrcLayout)
        = if g.hasModelsIndex then 1 else 0) ∧
    ((exportsLines g).count (configExportLine g.usesSrcLayout)
        = if g.hasConfiguration then 1 else 0) ∧
    ((exportsLines g).count (runtimeExportLine g.usesSrcLayout)
        = if g.hasRuntime then 1 else 0) ∧
    (exportsLines g =
      headerLines ++
        (if exportBlock g = [] then
          (if g.fallbackSrcIndex then [srcIndexExportLine]
           else [noEntrypointComment g.usesSrcLayout])
         else exportBlock g)) := by
  rcases g with ⟨a, m, c, r, u, f⟩
  revert a m c r u f
  decide

/-- Claim C9 (counterexample): the empty string is a `--scope` value that
does not start with `"@"`, yet no `"@"` is prepended — it is falsy, so
normalization erases it and the package name comes out unscoped. -/
theorem normalizeScope_empty_scope_cex :
    strStartsWith "" "@" = false ∧
    normalizeScope (some "") = "" ∧
    pkgNameOf (some "") "graph" "7.1" = "azure-devops-graph-7.1" :=
  ⟨rfl, rfl, rfl⟩

/-- Claim C9 (amended): an absent scope yields the unscoped
`azure-devops-<api>-<version>` package name; a present NON-EMPTY scope is
used unchanged when it starts with `"@"` and has `"@"` prepended
otherwise, then is joined with a slash to the base name. -/
theorem normalizeScope_pkg_name (s api v : String) (hs : s ≠ "") :
    pkgNameOf none api v = baseName api v ∧
    pkgNameOf (some s) api v =
      (if strStartsWith s "@" then s else "@" ++ s) ++ "/" ++
        baseName api v := by
  constructor
  · rfl
  · have hb : (s == "") = false := by simpa using hs
    have hne : ("@" ++ s) ≠ "" := by
      intro hcon
      have hlen := congrArg String.length hcon
      simp [String.length_append] at hlen
      exact absurd hlen.1 (by decide)
    have hbne : (("@" ++ s : String) == "") = false := by simpa using hne
    cases hpre : strStartsWith s "@" with
    | true => simp [pkgNameOf, normalizeScope, jsTruthy, hb, hpre]
    | false => simp [pkgNameOf, normalizeScope, jsTruthy, hb, hpre, hbne]

/-- Claim C9 witness: a scope given without `"@"` is normalized and
joined: `--scope valdepeace` with API `graph` and version `7.1` yields
`@valdepeace/azure-devops-graph-7.1`. -/
theorem normalizeScope_pkg_name_witness :
    pkgNameOf (some "valdepeace") "graph" "7.1" =
      "@valdepeace/azure-devops-graph-7.1" := by
  have h := (normalizeScope_pkg_name "valdepeace" "graph" "7.1" (by decide)).2
  rw [h]
  decide
